import Mathlib

/-!
Verification of the tox orchestrator fragment against its design document.

Each namespace below is a shallow embedding of one source module:

* `ToxRun`        — src/tox/run.py
* `PythonRunEnv`  — src/tox/tox_env/python/runner.py (class PythonRun)
* `PluginManager` — src/tox/plugin/manager.py (class Plugin)
* `PythonDepsMod` — src/tox/tox_env/python/pip/req_file.py (class PythonDeps)
* `ShowConfigCmd` — src/tox/session/cmd/show_config.py

Python strings are modelled as `List Char`; fallible code returns `Except`.
-/

namespace ToxRun

/-- Embeds `main` of run.py: the chosen command handler returns an int or
None (`Option Int` here); a None result is reported as 0. -/
def main (handlerResult : Option Int) : Int :=
  match handlerResult with
  | none => 0
  | some r => r

/-- Embeds `run` of run.py: `main` runs inside a try/except; a
KeyboardInterrupt (the `Except.error` case) is converted to the exit
status -2, otherwise the handler result becomes the exit status. -/
def run (outcome : Except Unit (Option Int)) : Int :=
  match outcome with
  | Except.error _ => -2
  | Except.ok handlerResult => main handlerResult

/-- Modelled from the spec: the scheduler/report code that produces an
environment-failure exit code is not part of the source fragment; per the
spec it is "a distinct non-zero code for any environment failure", a
positive count/flag of failed environments returned by a handler. -/
def envFailureCode (c : Int) : Prop := 0 < c

end ToxRun

namespace PythonRunEnv

/-- The two errors `no_base_python_found` can raise (tox.tox_env.errors.Skip
and NoInterpreter carrying the list of requested base pythons). -/
inductive ToxError where
  | skip : ToxError
  | noInterpreter : List String → ToxError
deriving DecidableEq

/-- Terminal states of an environment in the scheduler state machine. -/
inductive EnvState where
  | succeeded : EnvState
  | failed : EnvState
  | skipped : EnvState
deriving DecidableEq

/-- Embeds `PythonRun.no_base_python_found`: raises Skip when the core
`skip_missing_interpreters` flag resolves to true, NoInterpreter otherwise. -/
def no_base_python_found (skip_missing_interpreters : Bool)
    (base_pythons : List String) : ToxError :=
  if skip_missing_interpreters then ToxError.skip
  else ToxError.noInterpreter base_pythons

/-- Modelled from the spec: the scheduler (not part of the source fragment)
maps a raised Skip to the terminal state `skipped` and an environment error
such as NoInterpreter to `failed`. -/
def terminalStateOf : ToxError → EnvState
  | ToxError.skip => EnvState.skipped
  | ToxError.noInterpreter _ => EnvState.failed

/-- Modelled from the spec: NoInterpreter is the `MissingRequirement` error
of the spec's error taxonomy; the errors module defining the class hierarchy
is not part of the source fragment. -/
def isMissingRequirement : ToxError → Bool
  | ToxError.skip => false
  | ToxError.noInterpreter _ => true

/-- Observable steps of `PythonRun.setup` and the helpers it calls, in the
order the method bodies perform them. -/
inductive SetupStep where
  | superSetup : SetupStep
  | cachedInstall (of_type : String) (category : String) : SetupStep
  | getPackageDependencies : SetupStep
  | performPackaging : SetupStep
  | installPythonPackages : SetupStep
deriving DecidableEq

/-- Embeds `PythonRun.install_package`: when a package environment is
configured, performs packaging and, if the built package list is non-empty,
installs it. -/
def install_package (has_package_env : Bool) (package_nonempty : Bool) :
    List SetupStep :=
  if has_package_env then
    [SetupStep.performPackaging] ++
      (if package_nonempty then [SetupStep.installPythonPackages] else [])
  else []

/-- Embeds `PythonRun.setup` as the trace of steps it performs: first
`super().setup()`, then `cached_install(deps, "PythonRun", "deps")`, and only
when `package_env` is configured: fetch the package dependencies, install
them via `cached_install(package_deps, "PythonRun", "package_deps")`, then
`install_package`. -/
def setup (has_package_env : Bool) (package_nonempty : Bool) :
    List SetupStep :=
  [SetupStep.superSetup, SetupStep.cachedInstall "PythonRun" "deps"] ++
  (if has_package_env then
    [SetupStep.getPackageDependencies,
     SetupStep.cachedInstall "PythonRun" "package_deps"] ++
      install_package has_package_env package_nonempty
  else [])

end PythonRunEnv

namespace PluginManager

/-- The internal plugin modules registered by `Plugin._register_plugins`,
identified by the names they are imported under in manager.py, in the order
of the `internal_plugins` tuple. -/
def internal_plugins : List String :=
  ["loader_api", "provision", "runner", "pyproject", "cmd_builder", "legacy",
   "version_flag", "exec_", "quickstart", "show_config", "devenv", "list_env",
   "depends", "parallel", "sequential", "package_api"]

/-- Observable steps of `Plugin._register_plugins`. -/
inductive RegStep where
  | register (plugin : String) : RegStep
  | loadSetuptoolsEntrypoints : RegStep
  | checkPending : RegStep
deriving DecidableEq

/-- The registration steps of `Plugin._register_plugins` in source order:
the inline plugin when present, the setuptools entry points, every internal
plugin, and the state module. -/
def registrations (inline : Option String) : List RegStep :=
  (match inline with
   | some m => [RegStep.register m]
   | none => []) ++
  [RegStep.loadSetuptoolsEntrypoints] ++
  internal_plugins.map RegStep.register ++
  [RegStep.register "state"]

/-- Embeds `Plugin._register_plugins` as its step trace: all registrations,
then `self.manager.check_pending()` as the final statement. -/
def _register_plugins (inline : Option String) : List RegStep :=
  registrations inline ++ [RegStep.checkPending]

/-- Modelled from the spec: pluggy's `check_pending` (external to the source
fragment) raises an UnknownExtensionPoint error naming a registered hook
implementation whose extension-point name matches no declared hook
specification, and succeeds otherwise. -/
def check_pending (impl_names spec_names : List String) :
    Except String Unit :=
  match impl_names.find? (fun n => !(spec_names.contains n)) with
  | some n => Except.error n
  | none => Except.ok ()

/-- pluggy registry state, embedded as the ordered list of registered
plugin objects; `get_plugins` enumerates it. -/
def get_plugins (manager : List String) : List String := manager

/-- pluggy `unregister`: removes one plugin from the registry. -/
def unregister (manager : List String) (plugin : String) : List String :=
  manager.erase plugin

/-- pluggy `register`: appends one plugin to the registry. -/
def register (manager : List String) (plugin : String) : List String :=
  manager ++ [plugin]

/-- `Plugin._register_plugins` as a registry-state transformer: registers
the inline plugin when present, the setuptools entry-point plugins, every
internal plugin, and the state module (check_pending does not change the
registered set). -/
def _register_plugins_state (manager : List String) (inline : Option String)
    (entrypoint_plugins : List String) : List String :=
  let m1 := match inline with
            | some p => register manager p
            | none => manager
  let m2 := entrypoint_plugins.foldl register m1
  let m3 := internal_plugins.foldl register m2
  register m3 "state"

/-- Embeds `Plugin.load_plugins`: first unregisters every plugin returned by
`get_plugins`, then runs `_register_plugins` with the inline plugin loaded
from the path. `inline` and `entrypoint_plugins` stand for the
path-determined `_load_inline` result and the installed setuptools entry
points; the trailing `REGISTER._register_tox_env_types` call touches the
environment-type registry, not the plugin registry, and is omitted. -/
def load_plugins (manager : List String) (inline : Option String)
    (entrypoint_plugins : List String) : List String :=
  let cleared := (get_plugins manager).foldl unregister manager
  _register_plugins_state cleared inline entrypoint_plugins

end PluginManager

namespace ConfigResolve

/-- Errors of the configuration layer, per the spec's error taxonomy. -/
inductive ConfigError where
  | missingValue : ConfigError
deriving DecidableEq

/-- A configuration declaration registered through `add_config`: its key
aliases, its optional default, and its description. -/
structure ConfigDefinition (α : Type) where
  keys : List String
  default : Option α
  desc : String

/-- Modelled from the spec: `get` resolution for a declared key (the
ConfigSet/add_config machinery is not part of the source fragment). An
explicit override has highest precedence, then a raw value from the backing
source, then the declared default; with none of the three present,
resolution fails with MissingValue. -/
def get {α : Type} (decl : ConfigDefinition α)
    (override_value raw : Option α) : Except ConfigError α :=
  match override_value with
  | some v => Except.ok v
  | none =>
    match raw with
    | some v => Except.ok v
    | none =>
      match decl.default with
      | some v => Except.ok v
      | none => Except.error ConfigError.missingValue

end ConfigResolve

namespace PythonRunEnv

/-- Embeds the `deps` declaration registered by `PythonRun.register_config`:
default the empty requirement list (requirement specifications are opaque
strings here). -/
def deps_config : ConfigResolve.ConfigDefinition (List String) :=
  { keys := ["deps"], default := some [],
    desc := "Name of the python dependencies as specified by PEP-440" }

/-- Embeds the core `skip_missing_interpreters` declaration registered by
`PythonRun.register_config`: default true. -/
def skip_missing_interpreters_config : ConfigResolve.ConfigDefinition Bool :=
  { keys := ["skip_missing_interpreters"], default := some true,
    desc := "skip running missing interpreters" }

end PythonRunEnv

namespace ShowConfigCmd

/-- One line of terminal output produced by the config command (colorizing
and indentation are rendering details abstracted away). -/
inductive OutLine where
  | blank : OutLine
  | sectionHeader (name : String) : OutLine
  | keyValue (key : String) (value : String) : OutLine
  | comment (text : String) : OutLine
deriving DecidableEq

/-- A resolved configuration set as `print_conf` consumes it: its iteration
order, membership, alias-to-primary-key mapping, per-key stringified value
(or exception text when resolution raises), and the keys `unused()`
reports. -/
structure ConfigSet where
  iter_keys : List String
  contains : String → Bool
  primary_key : String → String
  value : String → Except String String
  unused_keys : List String

/-- One loop iteration of `print_conf`: keys not in the set are skipped, the
key is mapped to its primary key, and the value (or the exception rendered
in place of it) is printed as a key/value line. -/
def entry_for (conf : ConfigSet) (key : String) : Option OutLine :=
  if conf.contains key then
    match conf.value (conf.primary_key key) with
    | Except.ok s => some (OutLine.keyValue (conf.primary_key key) s)
    | Except.error e =>
        some (OutLine.keyValue (conf.primary_key key) ("# Exception: " ++ e))
  else none

/-- Embeds `print_conf`: iterates the requested keys (or the whole set when
no key filter was given), then — only when unused keys exist and no key
filter was given — prints the unused-keys comment. -/
def print_conf (conf : ConfigSet) (keys : List String) : List OutLine :=
  ((if keys.isEmpty then conf.iter_keys else keys).filterMap
      (entry_for conf)) ++
  (if !conf.unused_keys.isEmpty && keys.isEmpty then
    [OutLine.comment
      ("# !!! unused: " ++ String.intercalate ", " conf.unused_keys)]
  else [])

/-- A materialized tox environment as `show_config` consumes it. -/
structure ToxEnvModel where
  name : String
  type_name : String
  conf : ConfigSet

/-- The pieces of the session state `show_config` reads. -/
structure StateModel where
  envs : List ToxEnvModel
  core : ConfigSet
  env_is_all : Bool
  show_core : Bool
  list_keys_only : List String

/-- Embeds the inner `_print_env` of `show_config`: section header, the
environment type line when no key filter was given, then the config body. -/
def _print_env (keys : List String) (e : ToxEnvModel) : List OutLine :=
  [OutLine.sectionHeader ("[testenv:" ++ e.name ++ "]")] ++
  (if keys.isEmpty then [OutLine.keyValue "type" e.type_name] else []) ++
  print_conf e.conf keys

/-- Embeds `show_config`: prints every selected environment (blank-line
separated), then — when everything was selected or --core was passed — the
core section, and returns the exit code 0. -/
def show_config (state : StateModel) : List OutLine × Int :=
  let keys := state.list_keys_only
  let env_out : List OutLine :=
    match state.envs.map (_print_env keys) with
    | [] => []
    | b :: rest => b ++ (rest.map (fun blk => OutLine.blank :: blk)).flatten
  let core_out : List OutLine :=
    if state.env_is_all || state.show_core then
      [OutLine.blank, OutLine.sectionHeader "[tox]"] ++
        print_conf state.core keys
    else []
  (env_out ++ core_out, 0)

end ShowConfigCmd

namespace PythonDepsMod

/-- A parsed requirement as the requirements-file parser produces it: the
file it was parsed from and the truthiness of each named per-requirement
option (`r.options.get(name)`). -/
structure ParsedRequirement where
  from_file : String
  options : String → Bool

/-- The `_illegal_options` class attribute of PythonDeps: options valid in
requirements.txt but not via the pip CLI. -/
def _illegal_options : List String := ["hash"]

/-- One iteration of the `_parse_requirements` check loop: a requirement not
parsed from the deps pseudo-file itself is skipped; otherwise the first
truthy illegal option (paired with the requirement) is a ValueError. -/
def check_requirement (path : String) (r : ParsedRequirement) :
    Option (String × ParsedRequirement) :=
  if r.from_file == path then
    match _illegal_options.find? (fun o => r.options o) with
    | some o => some (o, r)
    | none => none
  else none

/-- The `_parse_requirements` loop over the parsed requirements, raising at
the first requirement from the deps list that carries an illegal option. -/
def scan_illegal (path : String) :
    List ParsedRequirement → Option (String × ParsedRequirement)
  | [] => none
  | r :: rest =>
    match check_requirement path r with
    | some e => some e
    | none => scan_illegal path rest

/-- Embeds `PythonDeps._parse_requirements`: the superclass parse result is
scanned; a ValueError (carrying the option name and requirement) is raised
for the first deps-list requirement with a truthy illegal option, otherwise
the requirement list is returned unchanged. -/
def _parse_requirements (path : String)
    (requirements : List ParsedRequirement) :
    Except (String × ParsedRequirement) (List ParsedRequirement) :=
  match scan_illegal path requirements with
  | some err => Except.error err
  | none => Except.ok requirements

/-- Python `str.isspace` for a single character: ASCII whitespace, the
C0 separator block, NEL, and the Unicode space/line/paragraph separators. -/
def pyIsSpace (c : Char) : Bool :=
  let n := c.val.toNat
  n == 9 || n == 10 || n == 11 || n == 12 || n == 13 ||
  n == 28 || n == 29 || n == 30 || n == 31 || n == 32 ||
  n == 133 || n == 160 || n == 0x1680 ||
  (decide (0x2000 ≤ n) && decide (n ≤ 0x200A)) ||
  n == 0x2028 || n == 0x2029 || n == 0x202F || n == 0x205F || n == 0x3000

/-- Python `str.isalpha` for a single character, on the ASCII range (the
properties proved below do not depend on the exact letter table beyond
ASCII). -/
def pyIsAlpha (c : Char) : Bool :=
  (decide ('a' ≤ c) && decide (c ≤ 'z')) ||
  (decide ('A' ≤ c) && decide (c ≤ 'Z'))

/-- The line boundaries of Python `str.splitlines` (`\r\n` needs no special
case here: `_normalize_raw` strips every `\r` before splitting). -/
def pyIsLineBreak (c : Char) : Bool :=
  let n := c.val.toNat
  n == 10 || n == 13 || n == 11 || n == 12 || n == 28 || n == 29 ||
  n == 30 || n == 133 || n == 0x2028 || n == 0x2029

/-- Python `str.splitlines`: split at each line boundary; a trailing
boundary produces no empty final line. -/
def splitlines (l : List Char) : List (List Char) :=
  match l with
  | [] => []
  | c :: cs =>
    if pyIsLineBreak c then [] :: splitlines cs
    else
      match splitlines cs with
      | [] => [[c]]
      | line :: rest => (c :: line) :: rest

/-- The line-continuation removal
raw.replace backslash-newline occurrences, i.e. the
split-on-backslash-newline/join step: deletes each leftmost non-overlapping
occurrence of the two-character sequence backslash, newline. -/
def stripCont : List Char → List Char
  | [] => []
  | '\\' :: '\n' :: rest => stripCont rest
  | c :: rest => c :: stripCont rest

/-- The `ONE_ARG` set of req_file.py, as a list in source order. No element
is a prefix of another, so at most one can match a `startswith` test and the
arbitrary iteration order of the Python set is immaterial. -/
def ONE_ARG : List (List Char) :=
  ["-i", "--index-url", "--extra-index-url", "-e", "--editable", "-c",
   "--constraint", "-r", "--requirement", "-f", "--find-links",
   "--trusted-host", "--use-feature", "--no-binary",
   "--only-binary"].map String.toList

/-- The `ONE_ARG_ESCAPE` set of req_file.py, as a list in source order. -/
def ONE_ARG_ESCAPE : List (List Char) :=
  ["-c", "--constraint", "-r", "--requirement", "-f", "--find-links",
   "-e", "--editable"].map String.toList

/-- The `arg_match` generator of `_normalize_raw`: the ONE_ARG flag that is
a proper prefix of the line and is not followed by whitespace or `=`. -/
def arg_match (line : List Char) : Option (List Char) :=
  ONE_ARG.find? (fun arg =>
    arg.isPrefixOf line && decide (arg.length < line.length) &&
    !(pyIsSpace (line.getD arg.length ' ') ||
      line.getD arg.length ' ' == '='))

/-- The `arg_match` rewrite of `_normalize_raw`: insert a space after the
matched flag. -/
def apply_arg_match (line : List Char) : List Char :=
  match arg_match line with
  | some arg => arg ++ ' ' :: line.drop arg.length
  | none => line

/-- The regular expression substitution of `_normalize_raw`: escape each
whitespace character not already preceded by a backslash (the lookbehind
inspects the original text; `prev` is the previous original character). -/
def reEscapeSpaces (prev : Option Char) : List Char → List Char
  | [] => []
  | c :: rest =>
    if pyIsSpace c && !(prev == some '\\') then
      '\\' :: c :: reEscapeSpaces (some c) rest
    else c :: reEscapeSpaces (some c) rest

/-- The `escape_match` step of `_normalize_raw`. Finding the unique
ONE_ARG_ESCAPE flag that is a prefix of the line, Python evaluates
`line[len(e)]` with no bounds guard: when the line is exactly the flag this
raises IndexError (the `Except.error` case); when the character after the
flag is whitespace, the remainder after that character is space-escaped and
re-joined with a single space. -/
def apply_escape (line1 : List Char) : Except Unit (List Char) :=
  match ONE_ARG_ESCAPE.find? (fun e => e.isPrefixOf line1) with
  | none => Except.ok line1
  | some e =>
    if line1.length ≤ e.length then Except.error ()
    else if pyIsSpace (line1.getD e.length ' ') then
      Except.ok (line1.take e.length ++ ' ' ::
        reEscapeSpaces none (line1.drop (e.length + 1)))
    else Except.ok line1

/-- One iteration of the per-line loop of `_normalize_raw`. -/
def normalize_line (line : List Char) : Except Unit (List Char) :=
  apply_escape (apply_arg_match line)

/-- The per-line loop of `_normalize_raw`, stopping at the first line that
raises. -/
def normalize_lines : List (List Char) → Except Unit (List (List Char))
  | [] => Except.ok []
  | l :: rest =>
    match normalize_line l with
    | Except.error e => Except.error e
    | Except.ok l1 =>
      match normalize_lines rest with
      | Except.error e => Except.error e
      | Except.ok rest1 => Except.ok (l1 :: rest1)

/-- Python's newline join of the processed lines. -/
def joinLines : List (List Char) → List Char
  | [] => []
  | [l] => l
  | l :: rest => l ++ '\n' :: joinLines rest

/-- Embeds `PythonDeps._normalize_raw`: strip `\r`, remove line
continuations, process each line (ONE_ARG rewrite then escape step), join
with newlines, and append a trailing newline when the continuation-stripped
input still ends in backslash-newline. -/
def _normalize_raw (raw : List Char) : Except Unit (List Char) :=
  let r2 := stripCont (raw.filter (fun c => !(c == '\r')))
  match normalize_lines (splitlines r2) with
  | Except.error e => Except.error e
  | Except.ok ls =>
    let adjusted := joinLines ls
    Except.ok (if (['\\', '\n'] : List Char).isSuffixOf r2 then
        adjusted ++ ['\n']
      else adjusted)

/-- Embeds the per-line body of `PythonDeps._pre_process`. Python operator
precedence makes the condition
`startswith("-r") or (startswith("-c") and line[2].isalpha())`: a line
starting with `-r` is always rewritten; for a line starting with `-c` the
unguarded `line[2]` raises IndexError on the bare flag, and otherwise the
line is rewritten exactly when that character is a letter. -/
def _pre_process_line (line : List Char) : Except Unit (List Char) :=
  if (['-', 'r'] : List Char).isPrefixOf line then
    Except.ok (line.take 2 ++ ' ' :: line.drop 2)
  else if (['-', 'c'] : List Char).isPrefixOf line then
    match line.get? 2 with
    | none => Except.error ()
    | some ch =>
      if pyIsAlpha ch then Except.ok (line.take 2 ++ ' ' :: line.drop 2)
      else Except.ok line
  else Except.ok line

end PythonDepsMod

/-- C1: the process exit status is 0 when the run succeeds (a handler
returning None is reported as 0 and a handler result is passed through), a
KeyboardInterrupt is converted to the exit status -2, which is distinct from
0 and from any (positive) environment-failure code a handler can return. -/
theorem c1_run_exit_status :
    (∀ hr : Option Int, ToxRun.run (Except.ok hr) = ToxRun.main hr) ∧
    ToxRun.main none = 0 ∧
    (∀ r : Int, ToxRun.main (some r) = r) ∧
    ToxRun.run (Except.error ()) = -2 ∧
    ToxRun.run (Except.error ()) ≠ 0 ∧
    (∀ c : Int, ToxRun.envFailureCode c → ToxRun.run (Except.error ()) ≠ c) := by
  refine ⟨fun hr => rfl, rfl, fun r => rfl, rfl, by decide, fun c hc => ?_⟩
  simp only [ToxRun.envFailureCode] at hc
  simp only [ToxRun.run]
  omega

/-- Witness for c1_run_exit_status at the concrete environment-failure
code 1. -/
theorem c1_run_exit_status_witness :
    ToxRun.envFailureCode 1 ∧ ToxRun.run (Except.error ()) ≠ 1 :=
  ⟨Int.zero_lt_one, c1_run_exit_status.2.2.2.2.2 1 Int.zero_lt_one⟩

/-- C2: with `skip_missing_interpreters` true, `no_base_python_found` raises
Skip and the environment reaches the terminal state skipped; with the flag
false it raises NoInterpreter (the MissingRequirement error) carrying the
requested base pythons and the environment reaches failed. -/
theorem c2_no_base_python_found_policy :
    ∀ base_pythons : List String,
      (PythonRunEnv.no_base_python_found true base_pythons =
          PythonRunEnv.ToxError.skip ∧
        PythonRunEnv.terminalStateOf
            (PythonRunEnv.no_base_python_found true base_pythons) =
          PythonRunEnv.EnvState.skipped) ∧
      (PythonRunEnv.no_base_python_found false base_pythons =
          PythonRunEnv.ToxError.noInterpreter base_pythons ∧
        PythonRunEnv.terminalStateOf
            (PythonRunEnv.no_base_python_found false base_pythons) =
          PythonRunEnv.EnvState.failed ∧
        PythonRunEnv.isMissingRequirement
            (PythonRunEnv.no_base_python_found false base_pythons) = true) := by
  intro base_pythons
  exact ⟨⟨rfl, rfl⟩, rfl, rfl, rfl⟩

/-- C3: `PythonRun.setup` performs its phases in strict order — dependency
install under category "deps" first, and only afterwards, and only when a
package environment is configured, the packaging-dependency install under
the distinct category "package_deps" followed by packaging and package
install; the two installs use different category labels. -/
theorem c3_setup_phase_order :
    (∀ package_nonempty : Bool,
      PythonRunEnv.setup true package_nonempty =
        [PythonRunEnv.SetupStep.superSetup,
         PythonRunEnv.SetupStep.cachedInstall "PythonRun" "deps",
         PythonRunEnv.SetupStep.getPackageDependencies,
         PythonRunEnv.SetupStep.cachedInstall "PythonRun" "package_deps",
         PythonRunEnv.SetupStep.performPackaging] ++
        (if package_nonempty
          then [PythonRunEnv.SetupStep.installPythonPackages] else [])) ∧
    (∀ package_nonempty : Bool,
      PythonRunEnv.setup false package_nonempty =
        [PythonRunEnv.SetupStep.superSetup,
         PythonRunEnv.SetupStep.cachedInstall "PythonRun" "deps"]) ∧
    "deps" ≠ "package_deps" := by
  refine ⟨?_, ?_, by decide⟩ <;> intro pn <;> cases pn <;> rfl

/-- Unregistering every currently enumerated element empties a registry. -/
theorem foldl_erase_self {α : Type} [DecidableEq α] (l : List α) :
    List.foldl List.erase l l = [] := by
  induction l with
  | nil => rfl
  | cons a t ih => simpa using ih

/-- The per-plugin unregister loop of `load_plugins` clears the registry. -/
theorem unregister_all (l : List String) :
    List.foldl PluginManager.unregister l l = [] := foldl_erase_self l

/-- C4: during plugin setup the registry pending-check is the final step,
strictly after the inline plugin (when present), the setuptools entry-point
plugins, every internal plugin and the state module are registered, and a
hook implementation whose extension-point name matches no declared
specification makes the check fail with a fatal error. -/
theorem c4_check_pending_runs_last :
    (∀ inline : Option String,
      PluginManager._register_plugins inline =
        PluginManager.registrations inline ++
          [PluginManager.RegStep.checkPending] ∧
      PluginManager.RegStep.checkPending ∉
        PluginManager.registrations inline) ∧
    (∀ m : String,
      PluginManager.RegStep.register m ∈
        PluginManager.registrations (some m)) ∧
    (∀ inline : Option String, ∀ p ∈ PluginManager.internal_plugins,
      PluginManager.RegStep.register p ∈
        PluginManager.registrations inline) ∧
    (∀ inline : Option String,
      PluginManager.RegStep.loadSetuptoolsEntrypoints ∈
          PluginManager.registrations inline ∧
        PluginManager.RegStep.register "state" ∈
          PluginManager.registrations inline) ∧
    (∀ impl_names spec_names : List String,
      (∃ n ∈ impl_names, spec_names.contains n = false) →
      ∃ e, PluginManager.check_pending impl_names spec_names =
        Except.error e) := by
  refine ⟨fun inline => ⟨rfl, ?_⟩, fun m => ?_, fun inline p hp => ?_,
    fun inline => ⟨?_, ?_⟩, fun impl_names spec_names h => ?_⟩
  · cases inline <;>
      simp [PluginManager.registrations, PluginManager.internal_plugins]
  · simp [PluginManager.registrations]
  · cases inline <;> simp [PluginManager.registrations, hp]
  · cases inline <;> simp [PluginManager.registrations]
  · cases inline <;> simp [PluginManager.registrations]
  · obtain ⟨n, hn, hc⟩ := h
    have hsome : (impl_names.find? fun x => !(spec_names.contains x)).isSome :=
      List.find?_isSome.mpr ⟨n, hn, by simpa using hc⟩
    obtain ⟨x, hx⟩ := Option.isSome_iff_exists.mp hsome
    refine ⟨x, ?_⟩
    unfold PluginManager.check_pending
    rw [hx]

/-- Witness for c4_check_pending_runs_last: an internal plugin is registered
before the check even with an inline plugin present, and a concrete
unmatched hook implementation name is a fatal error. -/
theorem c4_check_pending_runs_last_witness :
    PluginManager.RegStep.register "provision" ∈
      PluginManager.registrations (some "inline_mod") ∧
    ∃ e, PluginManager.check_pending ["tox_bad"] ["tox_add_option"] =
      Except.error e :=
  ⟨c4_check_pending_runs_last.2.2.1 (some "inline_mod") "provision"
      (by decide),
   c4_check_pending_runs_last.2.2.2.2 ["tox_bad"] ["tox_add_option"]
      ⟨"tox_bad", by decide, by decide⟩⟩

/-- C5: `load_plugins` unregisters every registered plugin before
registering the new set, so from any prior registry state it produces the
same registered set as from a fresh registry, and running it twice leaves
the same set as running it once. -/
theorem c5_load_plugins_fresh_state :
    ∀ (manager : List String) (inline : Option String)
      (entrypoint_plugins : List String),
      PluginManager.load_plugins manager inline entrypoint_plugins =
        PluginManager.load_plugins [] inline entrypoint_plugins ∧
      PluginManager.load_plugins
          (PluginManager.load_plugins manager inline entrypoint_plugins)
          inline entrypoint_plugins =
        PluginManager.load_plugins manager inline entrypoint_plugins := by
  intro manager inline entrypoint_plugins
  have key : ∀ m : List String,
      PluginManager.load_plugins m inline entrypoint_plugins =
        PluginManager._register_plugins_state [] inline entrypoint_plugins := by
    intro m
    simp only [PluginManager.load_plugins, PluginManager.get_plugins]
    rw [unregister_all]
  exact ⟨(key manager).trans (key []).symm,
    (key _).trans (key manager).symm⟩

/-- C6: the keys registered by `PythonRun.register_config` carry defaults —
`deps` defaults to the empty requirement list and the core
`skip_missing_interpreters` key to true — so for every configuration source
(any combination of override and raw value, including both absent) resolving
either key succeeds and never fails with MissingValue. -/
theorem c6_registered_defaults_never_missing :
    (∀ override_value raw : Option (List String),
      ConfigResolve.get PythonRunEnv.deps_config override_value raw ≠
          Except.error ConfigResolve.ConfigError.missingValue ∧
        ∃ v, ConfigResolve.get PythonRunEnv.deps_config override_value raw =
          Except.ok v) ∧
    (∀ override_value raw : Option Bool,
      ConfigResolve.get PythonRunEnv.skip_missing_interpreters_config
            override_value raw ≠
          Except.error ConfigResolve.ConfigError.missingValue ∧
        ∃ v, ConfigResolve.get PythonRunEnv.skip_missing_interpreters_config
            override_value raw = Except.ok v) ∧
    ConfigResolve.get PythonRunEnv.deps_config none none = Except.ok [] ∧
    ConfigResolve.get PythonRunEnv.skip_missing_interpreters_config
        none none = Except.ok true := by
  refine ⟨?_, ?_, rfl, rfl⟩ <;>
    rintro (_ | v) (_ | r) <;>
    exact ⟨by simp [ConfigResolve.get, PythonRunEnv.deps_config,
      PythonRunEnv.skip_missing_interpreters_config], _, rfl⟩

/-- A `print_conf` key/value iteration never emits a comment line. -/
theorem comment_not_entry (conf : ShowConfigCmd.ConfigSet) (key t : String) :
    ShowConfigCmd.entry_for conf key ≠
      some (ShowConfigCmd.OutLine.comment t) := by
  unfold ShowConfigCmd.entry_for
  split
  · split <;> simp
  · simp

/-- The guard of the unused-keys comment, in propositional form. -/
theorem unused_guard_iff {α β : Type} (l : List α) (ks : List β) :
    (!l.isEmpty && ks.isEmpty) = true ↔ l ≠ [] ∧ ks = [] := by
  cases l <;> cases ks <;> simp

/-- C8: unused configuration keys are a diagnostic only — `show_config`
returns exit code 0 for every state, and `print_conf` emits the unused-keys
comment exactly when unused keys exist and no explicit key filter was
requested. -/
theorem c8_unused_is_diagnostic_only :
    (∀ st : ShowConfigCmd.StateModel,
      (ShowConfigCmd.show_config st).2 = 0) ∧
    (∀ (conf : ShowConfigCmd.ConfigSet) (keys : List String),
      (∃ t, ShowConfigCmd.OutLine.comment t ∈
          ShowConfigCmd.print_conf conf keys) ↔
        conf.unused_keys ≠ [] ∧ keys = []) := by
  constructor
  · intro st; rfl
  · intro conf keys
    constructor
    · rintro ⟨t, ht⟩
      rcases List.mem_append.mp ht with h | h
      · obtain ⟨k, _, hk⟩ := List.mem_filterMap.mp h
        exact absurd hk (comment_not_entry conf k t)
      · by_cases hcond : (!conf.unused_keys.isEmpty && keys.isEmpty) = true
        · exact (unused_guard_iff conf.unused_keys keys).mp hcond
        · rw [if_neg hcond] at h
          cases h
    · rintro ⟨hu, hk⟩
      refine ⟨"# !!! unused: " ++ String.intercalate ", " conf.unused_keys,
        List.mem_append_right _ ?_⟩
      rw [if_pos ((unused_guard_iff conf.unused_keys keys).mpr ⟨hu, hk⟩)]
      exact List.mem_cons_self _ _

/-- Witness for c8_unused_is_diagnostic_only: a configuration set with one
unused key and no key filter produces the unused comment, with exit 0. -/
theorem c8_unused_is_diagnostic_only_witness :
    (ShowConfigCmd.show_config
      { envs := [], core :=
        { iter_keys := [], contains := fun _ => false,
          primary_key := id, value := fun _ => Except.error "e",
          unused_keys := ["magic"] },
        env_is_all := false, show_core := false,
        list_keys_only := [] }).2 = 0 ∧
    (∃ t, ShowConfigCmd.OutLine.comment t ∈
      ShowConfigCmd.print_conf
        { iter_keys := [], contains := fun _ => false,
          primary_key := id, value := fun _ => Except.error "e",
          unused_keys := ["magic"] } []) :=
  ⟨c8_unused_is_diagnostic_only.1 _,
   (c8_unused_is_diagnostic_only.2 _ []).mpr ⟨by simp, rfl⟩⟩

/-- A single check-loop iteration flags a requirement exactly when it comes
from the deps pseudo-file and carries a truthy hash option. -/
theorem check_requirement_isSome_iff (path : String)
    (r : PythonDepsMod.ParsedRequirement) :
    (PythonDepsMod.check_requirement path r).isSome = true ↔
      r.from_file = path ∧ r.options "hash" = true := by
  by_cases hf : r.from_file = path
  · by_cases ho : r.options "hash" = true
    · simp [PythonDepsMod.check_requirement,
        PythonDepsMod._illegal_options, hf, ho, List.find?]
    · rw [Bool.not_eq_true] at ho
      simp [PythonDepsMod.check_requirement,
        PythonDepsMod._illegal_options, hf, ho, List.find?]
  · simp [PythonDepsMod.check_requirement,
      PythonDepsMod._illegal_options, hf]

/-- The check loop of `_parse_requirements` finds an offender exactly when
some requirement from the deps pseudo-file carries a truthy hash option. -/
theorem scan_illegal_isSome_iff (path : String)
    (requirements : List PythonDepsMod.ParsedRequirement) :
    (PythonDepsMod.scan_illegal path requirements).isSome = true ↔
      ∃ r ∈ requirements,
        r.from_file = path ∧ r.options "hash" = true := by
  induction requirements with
  | nil => simp [PythonDepsMod.scan_illegal]
  | cons r rest ih =>
      unfold PythonDepsMod.scan_illegal
      cases hc : PythonDepsMod.check_requirement path r with
      | some e =>
          simp only [Option.isSome_some, true_iff]
          exact ⟨r, List.mem_cons_self _ _,
            (check_requirement_isSome_iff path r).mp (by rw [hc]; rfl)⟩
      | none =>
          have hr : ¬ (r.from_file = path ∧ r.options "hash" = true) := by
            intro hand
            have := (check_requirement_isSome_iff path r).mpr hand
            rw [hc] at this
            cases this
          simp only [ih, List.mem_cons]
          constructor
          · rintro ⟨x, hx, hprop⟩
            exact ⟨x, Or.inr hx, hprop⟩
          · rintro ⟨x, hx | hx, hprop⟩
            · exact absurd (hx ▸ hprop) hr
            · exact ⟨x, hx, hprop⟩

/-- C10: `_parse_requirements` raises ValueError iff some requirement parsed
from the deps pseudo-file itself carries the illegal hash option；
requirements coming from other files never trigger the error, and with no
offender the parsed list is returned unchanged. -/
theorem c10_parse_requirements_illegal_iff :
    ∀ (path : String)
      (requirements : List PythonDepsMod.ParsedRequirement),
      ((∃ err, PythonDepsMod._parse_requirements path requirements =
          Except.error err) ↔
        ∃ r ∈ requirements,
          r.from_file = path ∧ r.options "hash" = true) ∧
      ((¬ ∃ r ∈ requirements,
          r.from_file = path ∧ r.options "hash" = true) →
        PythonDepsMod._parse_requirements path requirements =
          Except.ok requirements) := by
  intro path requirements
  have key : (∃ err, PythonDepsMod._parse_requirements path requirements =
      Except.error err) ↔
      (PythonDepsMod.scan_illegal path requirements).isSome = true := by
    unfold PythonDepsMod._parse_requirements
    cases hs : PythonDepsMod.scan_illegal path requirements <;> simp
  refine ⟨key.trans (scan_illegal_isSome_iff path requirements), ?_⟩
  intro hno
  unfold PythonDepsMod._parse_requirements
  cases hs : PythonDepsMod.scan_illegal path requirements with
  | none => rfl
  | some e =>
      exact absurd ((scan_illegal_isSome_iff path requirements).mp
        (by rw [hs]; rfl)) hno

/-- Witness for c10_parse_requirements_illegal_iff: an offender-free list is
returned unchanged. -/
theorem c10_parse_requirements_illegal_iff_witness :
    PythonDepsMod._parse_requirements "tox.ini"
      [{ from_file := "other.txt", options := fun o => o == "hash" }] =
    Except.ok
      [{ from_file := "other.txt", options := fun o => o == "hash" }] :=
  (c10_parse_requirements_illegal_iff "tox.ini"
    [{ from_file := "other.txt", options := fun o => o == "hash" }]).2
    (by simp)

/-- C7 counterexample: the line "-r x" — `-r` already followed by a space —
does not pass through `_pre_process` unchanged: the `or` binds the isalpha
guard only to `-c`, so the rewrite fires for every `-r` line and inserts a
second space. -/
theorem c7_pre_process_counterexample :
    PythonDepsMod._pre_process_line ("-r x".toList) =
      Except.ok ("-r  x".toList) ∧
    ("-r  x".toList : List Char) ≠ "-r x".toList :=
  ⟨rfl, by decide⟩

/-- C7 amended: in `_pre_process`, every line beginning with `-r` (whatever
follows, including a space) is rewritten by inserting a space after the
flag; a line beginning with `-c` is rewritten exactly when the character
after the flag is a letter, passes through unchanged when it is not, and
raises an index error when the line is the bare flag; every other line
passes through unchanged. -/
theorem c7_pre_process_rewrite :
    ∀ line : List Char,
      ((['-', 'r'] : List Char).isPrefixOf line = true →
        PythonDepsMod._pre_process_line line =
          Except.ok (['-', 'r'] ++ ' ' :: line.drop 2)) ∧
      ((['-', 'r'] : List Char).isPrefixOf line = false →
        (['-', 'c'] : List Char).isPrefixOf line = true →
        (line.get? 2 = none →
            PythonDepsMod._pre_process_line line = Except.error ()) ∧
        (∀ ch, line.get? 2 = some ch →
          PythonDepsMod.pyIsAlpha ch = true →
            PythonDepsMod._pre_process_line line =
              Except.ok (['-', 'c'] ++ ' ' :: line.drop 2)) ∧
        (∀ ch, line.get? 2 = some ch →
          PythonDepsMod.pyIsAlpha ch = false →
            PythonDepsMod._pre_process_line line = Except.ok line)) ∧
      ((['-', 'r'] : List Char).isPrefixOf line = false →
        (['-', 'c'] : List Char).isPrefixOf line = false →
        PythonDepsMod._pre_process_line line = Except.ok line) := by
  intro line
  refine ⟨fun hr => ?_, fun hr hc => ⟨fun hn => ?_, fun ch hs ha => ?_,
    fun ch hs ha => ?_⟩, fun hr hc => ?_⟩
  · obtain ⟨t, ht⟩ := List.isPrefixOf_iff_prefix.mp hr
    subst ht
    simp [PythonDepsMod._pre_process_line, List.isPrefixOf]
  · obtain ⟨t, ht⟩ := List.isPrefixOf_iff_prefix.mp hc
    subst ht
    cases t with
    | nil => rfl
    | cons a t1 => simp [List.get?] at hn
  · obtain ⟨t, ht⟩ := List.isPrefixOf_iff_prefix.mp hc
    subst ht
    cases t with
    | nil => simp [List.get?] at hs
    | cons a t1 =>
        have haeq : a = ch := by simpa [List.get?] using hs
        subst haeq
        simp [PythonDepsMod._pre_process_line, ha]
  · obtain ⟨t, ht⟩ := List.isPrefixOf_iff_prefix.mp hc
    subst ht
    cases t with
    | nil => simp [List.get?] at hs
    | cons a t1 =>
        have haeq : a = ch := by simpa [List.get?] using hs
        subst haeq
        simp [PythonDepsMod._pre_process_line, ha]
  · simp [PythonDepsMod._pre_process_line, hr, hc]

/-- Witness for c7_pre_process_rewrite: the shorthand "-rreq.txt" becomes
"-r req.txt". -/
theorem c7_pre_process_rewrite_witness :
    PythonDepsMod._pre_process_line ("-rreq.txt".toList) =
      Except.ok ("-r req.txt".toList) :=
  ((c7_pre_process_rewrite ("-rreq.txt".toList)).1 (by decide)).trans
    (congrArg Except.ok (by decide))

/-- No ONE_ARG_ESCAPE flag contains a space character. -/
theorem escape_flag_no_space :
    ∀ e ∈ PythonDepsMod.ONE_ARG_ESCAPE, ' ' ∉ e := by decide

/-- A prefix whose length bounds the whole list is the whole list. -/
theorem isPrefixOf_length_le (e l : List Char) (h : e.isPrefixOf l = true)
    (hle : l.length ≤ e.length) : e = l := by
  have hp := List.isPrefixOf_iff_prefix.mp h
  exact hp.eq_of_length (le_antisymm hp.length_le hle)

/-- The escape step of `_normalize_raw` raises only on a line that is
exactly a bare ONE_ARG_ESCAPE flag. -/
theorem apply_escape_ok (line1 : List Char)
    (h : line1 ∉ PythonDepsMod.ONE_ARG_ESCAPE) :
    ∃ s, PythonDepsMod.apply_escape line1 = Except.ok s := by
  unfold PythonDepsMod.apply_escape
  cases hfind : PythonDepsMod.ONE_ARG_ESCAPE.find?
      (fun e => e.isPrefixOf line1) with
  | none => exact ⟨line1, rfl⟩
  | some e =>
      have he := List.mem_of_find?_eq_some hfind
      have hpre : e.isPrefixOf line1 = true := by
        have := List.find?_some hfind
        simpa using this
      have hne : ¬ (line1.length ≤ e.length) := fun hle =>
        h ((isPrefixOf_length_le e line1 hpre hle) ▸ he)
      dsimp only
      rw [if_neg hne]
      by_cases hsp : PythonDepsMod.pyIsSpace (line1.getD e.length ' ') = true
      · rw [if_pos hsp]
        exact ⟨_, rfl⟩
      · rw [if_neg hsp]
        exact ⟨line1, rfl⟩

/-- The ONE_ARG rewrite cannot produce a bare escape flag (the rewritten
line contains a space; no flag does). -/
theorem apply_arg_match_not_escape (line : List Char)
    (h : line ∉ PythonDepsMod.ONE_ARG_ESCAPE) :
    PythonDepsMod.apply_arg_match line ∉ PythonDepsMod.ONE_ARG_ESCAPE := by
  unfold PythonDepsMod.apply_arg_match
  cases hm : PythonDepsMod.arg_match line with
  | none => exact h
  | some arg =>
      intro hin
      have hspace : ' ' ∈ arg ++ ' ' :: line.drop arg.length := by simp
      exact escape_flag_no_space _ hin hspace

/-- A line that is not a bare escape flag is processed without error. -/
theorem normalize_line_ok (line : List Char)
    (h : line ∉ PythonDepsMod.ONE_ARG_ESCAPE) :
    ∃ s, PythonDepsMod.normalize_line line = Except.ok s :=
  apply_escape_ok _ (apply_arg_match_not_escape line h)

/-- The per-line loop succeeds when no line is a bare escape flag. -/
theorem normalize_lines_ok (ls : List (List Char))
    (h : ∀ line ∈ ls, line ∉ PythonDepsMod.ONE_ARG_ESCAPE) :
    ∃ out, PythonDepsMod.normalize_lines ls = Except.ok out := by
  induction ls with
  | nil => exact ⟨[], rfl⟩
  | cons l rest ih =>
      obtain ⟨s, hs⟩ := normalize_line_ok l (h l (List.mem_cons_self l rest))
      obtain ⟨out, hout⟩ := ih (fun x hx => h x (List.mem_cons_of_mem l hx))
      refine ⟨s :: out, ?_⟩
      simp only [PythonDepsMod.normalize_lines]
      rw [hs, hout]

/-- C9 counterexample: `_normalize_raw` is not total — on the input
consisting solely of the one-argument flag `-c` the unguarded
`line[len(e)]` in the escape step raises an out-of-range string-index
error. -/
theorem c9_normalize_raw_counterexample :
    PythonDepsMod._normalize_raw ("-c".toList) = Except.error () := rfl

/-- C9 amended: `_normalize_raw` returns a string for every input string in
which no processed line is exactly a bare ONE_ARG_ESCAPE flag (`-c`, `-r`,
`-f`, `-e` or their long forms); a line consisting solely of such a flag
raises an out-of-range string-index error. -/
theorem c9_normalize_raw_total_without_bare_flags :
    ∀ raw : List Char,
      (∀ line ∈ PythonDepsMod.splitlines
          (PythonDepsMod.stripCont (raw.filter (fun c => !(c == '\r')))),
        line ∉ PythonDepsMod.ONE_ARG_ESCAPE) →
      ∃ s, PythonDepsMod._normalize_raw raw = Except.ok s := by
  intro raw h
  obtain ⟨out, hout⟩ := normalize_lines_ok _ h
  simp only [PythonDepsMod._normalize_raw]
  rw [hout]
  exact ⟨_, rfl⟩

/-- Witness for c9_normalize_raw_total_without_bare_flags at a concrete
two-line deps value. -/
theorem c9_normalize_raw_total_without_bare_flags_witness :
    ∃ s, PythonDepsMod._normalize_raw ("-rreq.txt\npkg==1.0".toList) =
      Except.ok s :=
  c9_normalize_raw_total_without_bare_flags ("-rreq.txt\npkg==1.0".toList)
    (by decide)
